import Mathlib

/-!
Verification development for the secondhand-mcp marketplace adapter layer.

The TypeScript source is shallowly embedded: every adapter entry point
becomes a total Lean function over an explicit environment type that
captures the outcomes of its upstream interactions (network calls,
browser operations).  A value of the form `Except.error e` in an
environment field models the corresponding JavaScript operation
throwing; `Option` fields model possibly-absent / falsy payload data.
Numbers that the source manipulates as JavaScript numbers are modelled
as rationals; a `parseFloat` result of NaN is modelled as `none`.
-/

deriving instance DecidableEq for Except

namespace Secondhand

/-! ## Shared data model (src/types.ts) -/

/-- Normalized listing record (interface Listing in src/types.ts). -/
structure Listing where
  id : String
  title : String
  price : String
  priceNumeric : Option ℚ
  currency : Option String
  location : Option String
  description : Option String
  url : String
  images : Option (List String)
  seller : Option String
  condition : Option String
  marketplace : String
  scrapedAt : String
deriving Repr, DecidableEq

/-- Per-adapter search outcome (interface SearchResult in src/types.ts).
The optional `note` field is attached by the eBay adapter via object spread. -/
structure SearchResult where
  marketplace : String
  success : Bool
  listings : List Listing
  error : Option String
  totalFound : Option Nat
  note : Option String
deriving Repr, DecidableEq

/-- Detail record (interface ListingDetails in src/types.ts).
Coordinates and delivery metadata are carried opaquely. -/
structure ListingDetails where
  id : String
  description : Option String
  images : List String
  location : Option String
  locationCoords : Option (ℚ × ℚ)
  seller : Option String
  deliveryTypes : Option (List String)
  isShippingOffered : Option Bool
  url : String
deriving Repr, DecidableEq

/-- Location lookup result (interface LocationCoordinates in src/types.ts).
Latitude and longitude are opaque numeric payloads, modelled as rationals. -/
structure LocationCoordinates where
  latitude : ℚ
  longitude : ℚ
  name : String
deriving Repr, DecidableEq

/-- Search input (interface SearchParams in src/types.ts). -/
structure SearchParams where
  query : String
  location : Option String
  maxPrice : Option ℚ
  minPrice : Option ℚ
  condition : Option String
  limit : Option Nat
  showSold : Option Bool
  sort : Option String
  category : Option String
  sizes : Option (List String)
  colors : Option (List String)
deriving Repr, DecidableEq

/-- BaseMarketplace.createError: failed outcome with empty listings. -/
def createError (name msg : String) : SearchResult :=
  { marketplace := name
    success := false
    listings := []
    error := some msg
    totalFound := none
    note := none }

/-! ## JavaScript value helpers

JavaScript truthiness on strings: the empty string is falsy.  The
helpers below model the `a || b`, `a ?? b` and `x ? ... : undefined`
idioms the adapters use on string-valued payload fields. -/

/-- Model of `a || b` where `a` is a possibly-absent string. -/
def jsOrStr (a b : Option String) : Option String :=
  match a with
  | some s => if s = "" then b else some s
  | none => b

/-- Model of `a || d` with a definite default string. -/
def jsOrElse (a : Option String) (d : String) : String :=
  match a with
  | some s => if s = "" then d else s
  | none => d

/-- Model of `s ? s : undefined`: collapse an empty string to absent. -/
def jsNonEmpty (a : Option String) : Option String :=
  match a with
  | some s => if s = "" then none else some s
  | none => none

/-- Characters matched by `\s` in JavaScript regular expressions and
removed by String.prototype.trim, restricted to the ASCII whitespace
characters that occur in the adapters inputs. -/
def isJsWhitespace (c : Char) : Bool :=
  c == ' ' || c == '\t' || c == '\n' || c == '\r' || c == '\x0b' || c == '\x0c'

/-- Model of String.prototype.toLowerCase on the ASCII text the
adapters normalize (character-list map, so concrete values reduce). -/
def jsToLower (s : String) : String := String.mk (s.data.map Char.toLower)

/-- Model of String.prototype.toUpperCase on ASCII text. -/
def jsToUpper (s : String) : String := String.mk (s.data.map Char.toUpper)

/-- Model of String.prototype.trim for the ASCII whitespace range. -/
def jsTrim (s : String) : String :=
  String.mk (((s.data.dropWhile isJsWhitespace).reverse.dropWhile isJsWhitespace).reverse)

/-- Model of String.prototype.split with a one-character separator. -/
def splitOnChar (sep : Char) : List Char → List (List Char)
  | [] => [[]]
  | c :: rest =>
      let r := splitOnChar sep rest
      if c = sep then [] :: r
      else
        match r with
        | h :: t => (c :: h) :: t
        | [] => [[c]]

/-- The prefix before the first occurrence of a separator: the first
element of a JavaScript split by that separator. -/
def beforeFirst (sep : List Char) : List Char → List Char
  | [] => []
  | c :: rest =>
      if sep.isPrefixOf (c :: rest) then []
      else c :: beforeFirst sep rest

/-- Model of Array.prototype.join. -/
def joinWith (sep : String) (xs : List String) : String :=
  match xs with
  | [] => ""
  | x :: rest => rest.foldl (fun acc y => acc ++ sep ++ y) x

/-- Model of String.prototype.startsWith via the character lists. -/
def jsStartsWith (s p : String) : Bool := p.data.isPrefixOf s.data

/-! ## Shared price parser (BaseMarketplace.parsePrice)

The source matches the regular expression
`([£€$])?[\s]*([\d,]+(?:\.\d{2})?)` against the price string, taking
the leftmost match; group 1 is an optional currency symbol, group 2 a
run of digits and commas with an optional two-digit decimal fraction.
Commas are then stripped and the remainder given to `parseFloat`. -/

def isAsciiDigit (c : Char) : Bool := '0' ≤ c && c ≤ '9'

def isDigitOrComma (c : Char) : Bool := isAsciiDigit c || c == ','

def isCurrencyChar (c : Char) : Bool := c == '£' || c == '€' || c == '$'

/-- Attempt of the regex tail at one position: optional whitespace, a
nonempty run of digits and commas (greedy), and an optional fraction of
a dot followed by exactly two digits.  Returns the text of group 2. -/
def matchAmount (cs : List Char) : Option (List Char) :=
  let rest := cs.dropWhile isJsWhitespace
  let run := rest.takeWhile isDigitOrComma
  if run.isEmpty then none
  else
    match rest.drop run.length with
    | '.' :: d1 :: d2 :: _ =>
        if isAsciiDigit d1 && isAsciiDigit d2 then some (run ++ ['.', d1, d2])
        else some run
    | _ => some run

/-- Attempt of the full regex at one position.  If a currency symbol is
present it is consumed greedily; should the remainder then fail, the
backtracked attempt without the symbol also fails, because a currency
character is neither whitespace nor a digit. -/
def matchPriceAt (cs : List Char) : Option (Option Char × List Char) :=
  match cs with
  | [] => none
  | c :: rest =>
      if isCurrencyChar c then
        match matchAmount rest with
        | some g2 => some (some c, g2)
        | none => (matchAmount (c :: rest)).map (fun g2 => (none, g2))
      else
        (matchAmount (c :: rest)).map (fun g2 => (none, g2))

/-- Leftmost match of the price regex, as in `String.prototype.match`. -/
def findPriceMatch : List Char → Option (Option Char × List Char)
  | [] => none
  | c :: rest =>
      match matchPriceAt (c :: rest) with
      | some m => some m
      | none => findPriceMatch rest

def digitsToNat (ds : List Char) : Nat :=
  ds.foldl (fun a c => a * 10 + (c.toNat - '0'.toNat)) 0

/-- Model of `parseFloat` on strings of the shape produced by the price
regex after comma stripping: an optional run of digits followed by an
optional dot and further digits.  An input carrying no digit at all
gives NaN, modelled as `none`. -/
def parseFloatQ (s : String) : Option ℚ :=
  let cs := s.data
  let ip := cs.takeWhile isAsciiDigit
  let fp := match cs.drop ip.length with
    | '.' :: r => r.takeWhile isAsciiDigit
    | _ => []
  if ip.isEmpty && fp.isEmpty then none
  else some ((digitsToNat ip : ℚ) + (digitsToNat fp : ℚ) / (10 : ℚ) ^ fp.length)

/-- Result shape of BaseMarketplace.parsePrice; `numeric` is `none`
when `parseFloat` would have produced NaN. -/
structure ParsedPrice where
  numeric : Option ℚ
  currency : String
deriving Repr, DecidableEq

/-- BaseMarketplace.parsePrice: leftmost regex match, default currency
symbol `$`, commas stripped from the numeric text before parsing. -/
def parsePrice (priceStr : String) : Option ParsedPrice :=
  match findPriceMatch priceStr.data with
  | none => none
  | some (cur, g2) =>
      some { numeric := parseFloatQ (String.mk (g2.filter (fun c => !(c == ','))))
             currency := match cur with
               | some c => String.mk [c]
               | none => "$" }

/-! ## Facebook Marketplace adapter (src/marketplaces/facebook.ts)

The adapter keeps a per-instance location cache, modelled as an
association list.  Each upstream GraphQL interaction appears as an
environment field: `Except.error e` models `fetchGraphQL` throwing
(network failure, non-OK status, or a GraphQL error payload), and the
nested `Option` models a response whose shape lacks the expected
nesting. -/

namespace Facebook

/-- The per-instance location cache (a JavaScript Map keyed by the
normalized query).  `cacheSet` mirrors Map.set: an existing key is
overwritten in place, a new key is appended. -/
def LocCache := List (String × LocationCoordinates)

def cacheLookup (cache : List (String × LocationCoordinates)) (k : String) :
    Option LocationCoordinates :=
  match cache with
  | [] => none
  | (k2, v) :: rest => if k2 = k then some v else cacheLookup rest k

def cacheSet (cache : List (String × LocationCoordinates)) (k : String)
    (v : LocationCoordinates) : List (String × LocationCoordinates) :=
  if cache.any (fun p => p.1 = k) then
    cache.map (fun p => if p.1 = k then (k, v) else p)
  else cache ++ [(k, v)]

/-- One node of the city_street_search result graph. -/
structure LocNode where
  subtitle : Option String
  single_line_address : String
  latitude : ℚ
  longitude : ℚ
deriving Repr, DecidableEq

/-- Display-name computation inside resolveLocation: the first segment
of the subtitle before a middle-dot separator, with the single-line
address substituted when the subtitle is absent, empty, or reads City. -/
def locNodeName (node : LocNode) : String :=
  match node.subtitle with
  | some sub =>
      let first := String.mk (beforeFirst " ·".data sub.data)
      if first = "City" then node.single_line_address
      else if first = "" then node.single_line_address
      else first
  | none => node.single_line_address

/-- Environment of one location lookup: the outcome of the GraphQL
call.  `Except.error` models the call throwing, `Option.none` a
response without the street_results edge list. -/
structure LocEnv where
  fetch : Except String (Option (List LocNode))
deriving Repr, DecidableEq

/-- FacebookMarketplace.resolveLocation.  Returns the coordinates (or
`none`), the updated cache, and whether the upstream call was made.
The cache key is the lowercased, trimmed query; only a successful
resolution inserts into the cache, and every failure path (thrown
call, missing edges, empty edges) returns `none` with the cache
untouched. -/
def resolveLocation (cache : List (String × LocationCoordinates)) (query : String)
    (env : LocEnv) : Option LocationCoordinates × List (String × LocationCoordinates) × Bool :=
  let cacheKey := jsTrim (jsToLower query)
  match cacheLookup cache cacheKey with
  | some v => (some v, cache, false)
  | none =>
      match env.fetch with
      | .error _ => (none, cache, true)
      | .ok none => (none, cache, true)
      | .ok (some []) => (none, cache, true)
      | .ok (some (node :: _)) =>
          let coords : LocationCoordinates :=
            ⟨node.latitude, node.longitude, locNodeName node⟩
          (some coords, cacheSet cache cacheKey coords, true)

/-- One listing node of the marketplace_search feed.  Availability
flags are tri-state: an absent field never triggers the strict
equality checks of the source.  The nested optional chains
`listing_price?.formatted_amount`, `primary_listing_photo?.image?.uri`,
`location?.reverse_geocode?.city_page?.display_name` and
`marketplace_listing_seller?.name` are collapsed to single optional
fields. -/
structure ListingNode where
  id : String
  marketplace_listing_title : Option String
  is_sold : Option Bool
  is_live : Option Bool
  is_pending : Option Bool
  is_hidden : Option Bool
  formatted_amount : Option String
  photo_uri : Option String
  location_name : Option String
  seller_name : Option String
deriving Repr, DecidableEq

/-- A feed unit edge: the node may be absent, of a foreign typename, or
a MarketplaceFeedListingStoryObject with an optional listing. -/
inductive FeedNode where
  | listingStory (listing : Option ListingNode)
  | otherTypename
deriving Repr, DecidableEq

structure Edge where
  node : Option FeedNode
deriving Repr, DecidableEq

/-- The sold-marker title heuristic: the uppercased title starts with
the `[SOLD]` or `SOLD -` markers or is exactly `SOLD`. -/
def soldTitleHeuristic (title : Option String) : Bool :=
  let t := jsToUpper (title.getD "")
  jsStartsWith t "[SOLD]" || jsStartsWith t "SOLD -" || t == "SOLD"

/-- The union of the explicit availability flags and the title
heuristic, exactly as the sequence of continue statements tests it. -/
def excludedAsSold (l : ListingNode) : Bool :=
  l.is_sold == some true || l.is_live == some false || l.is_pending == some true ||
    l.is_hidden == some true || soldTitleHeuristic l.marketplace_listing_title

/-- Conversion of one accepted feed listing to the normalized shape. -/
def toListing (nowIso : String) (l : ListingNode) : Listing :=
  let price := jsOrElse l.formatted_amount "Price not listed"
  let parsed := parsePrice price
  { id := l.id
    title := jsOrElse l.marketplace_listing_title "Untitled Listing"
    price := price
    priceNumeric := parsed.bind (·.numeric)
    currency := some (jsOrElse (parsed.map (·.currency)) "$")
    location := l.location_name
    description := none
    url := "https://www.facebook.com/marketplace/item/" ++ l.id
    images := (jsNonEmpty l.photo_uri).map (fun u => [u])
    seller := l.seller_name
    condition := none
    marketplace := "facebook"
    scrapedAt := nowIso }

/-- The body of the parseListings for-loop, with the accumulator kept
in reverse push order and the break at the limit check. -/
def parseListingsGo (limit : Nat) (showSold : Bool) (nowIso : String) :
    List Edge → List Listing → List Listing
  | [], acc => acc.reverse
  | e :: rest, acc =>
      if acc.length ≥ limit then acc.reverse
      else
        match e.node with
        | some (.listingStory (some l)) =>
            if !showSold && excludedAsSold l then
              parseListingsGo limit showSold nowIso rest acc
            else
              parseListingsGo limit showSold nowIso rest (toListing nowIso l :: acc)
        | _ => parseListingsGo limit showSold nowIso rest acc

/-- FacebookMarketplace.parseListings. -/
def parseListings (edges : List Edge) (limit : Nat) (showSold : Bool)
    (nowIso : String) : List Listing :=
  parseListingsGo limit showSold nowIso edges []

/-- The listing nodes of the feed that pass the typename and presence
checks, in feed order. -/
def storyListings (edges : List Edge) : List ListingNode :=
  edges.filterMap (fun e =>
    match e.node with
    | some (.listingStory (some l)) => some l
    | _ => none)

/-- Environment of one search call. -/
structure SearchEnv where
  loc : LocEnv
  searchFetch : Except String (Option (List Edge))
deriving Repr, DecidableEq

/-- FacebookMarketplace.search.  Total because every throwing
operation of the source body sits inside the try/catch that converts
the failure into `createError`. -/
def search (cache : List (String × LocationCoordinates)) (params : SearchParams)
    (env : SearchEnv) (nowIso : String) :
    SearchResult × List (String × LocationCoordinates) :=
  let location := params.location.getD "san francisco"
  let limit := params.limit.getD 24
  match resolveLocation cache location env.loc with
  | (none, cache2, _) =>
      (createError "facebook"
        ("Could not find location \"" ++ location ++
          "\". Try a major city name like \"san francisco\", \"nyc\", or \"chicago\"."),
        cache2)
  | (some _, cache2, _) =>
      match env.searchFetch with
      | .error e =>
          (createError "facebook" ("Facebook Marketplace search failed: " ++ e), cache2)
      | .ok none =>
          (createError "facebook"
            "Unexpected response structure from Facebook. The GraphQL doc_id may need updating.",
            cache2)
      | .ok (some edges) =>
          let listings := parseListings edges limit (params.showSold.getD false) nowIso
          ({ marketplace := "facebook"
             success := true
             listings := listings
             error := none
             totalFound := some listings.length
             note := none }, cache2)

/-- Photo-call payload: the listing_photos array, each entry collapsed
to its `photo?.image?.uri` chain (absent or empty string when the
chain breaks). -/
structure PhotosTarget where
  listing_photos : Option (List (Option String))
deriving Repr, DecidableEq

/-- Info-call payload with each optional chain collapsed. -/
structure InfoTarget where
  description : Option String
  location_text : Option String
  location : Option (ℚ × ℚ)
  seller_name : Option String
  delivery_types : Option (List String)
  is_shipping_offered : Option Bool
deriving Repr, DecidableEq

/-- Environment of one detail fetch: the outcomes of the photo call
and the info call issued through Promise.all. -/
structure DetailEnv where
  photosFetch : Except String (Option PhotosTarget)
  infoFetch : Except String (Option InfoTarget)
deriving Repr, DecidableEq

/-- FacebookMarketplace.getListingDetails.  Promise.all rejects as
soon as either constituent call rejects, so the fetch yields a detail
record only when both calls succeed; the rejection reported first in
the model is the photo call, fixing the timing left open by the
event loop. -/
def getListingDetails (listingId : String) (env : DetailEnv) :
    Except String ListingDetails :=
  match env.photosFetch, env.infoFetch with
  | .error e, _ => .error e
  | .ok _, .error e => .error e
  | .ok pt, .ok it =>
      let images := ((pt.bind (·.listing_photos)).getD []).filterMap jsNonEmpty
      .ok { id := listingId
            description := it.bind (·.description)
            images := images
            location := it.bind (·.location_text)
            locationCoords := it.bind (·.location)
            seller := it.bind (·.seller_name)
            deliveryTypes := it.bind (·.delivery_types)
            isShippingOffered := it.bind (·.is_shipping_offered)
            url := "https://www.facebook.com/marketplace/item/" ++ listingId }

end Facebook

/-! ## eBay adapter (src/marketplaces/ebay.ts)

Times are milliseconds since the epoch, as delivered by Date.now. -/

namespace Ebay

/-- Outcome of a fetch call as the source distinguishes it: the call
may throw, complete with a non-OK status, or complete with a parsed
payload. -/
inductive HttpOutcome (α : Type) where
  | threw (msg : String)
  | notOk (status : Nat) (body : String)
  | ok (payload : α)
deriving Repr, DecidableEq

/-- The token cache fields of the adapter instance. -/
structure TokenState where
  accessToken : Option String
  tokenExpiresAt : Int
deriving Repr, DecidableEq

/-- A successful OAuth token response body. -/
structure TokenResponse where
  access_token : String
  expires_in : Int
deriving Repr, DecidableEq

/-- EbayMarketplace.getToken.  Returns the bearer value, the updated
cache state, and whether a fresh token was fetched.  The cached value
is reused exactly when one is present and the current time is still
more than the 60 second safety margin before the stored expiry. -/
def getToken (st : TokenState) (now : Int)
    (tokenFetch : Except String TokenResponse) :
    Except String (String × TokenState × Bool) :=
  match st.accessToken with
  | some tok =>
      if now < st.tokenExpiresAt - 60000 then .ok (tok, st, false)
      else
        match tokenFetch with
        | .error e => .error e
        | .ok r => .ok (r.access_token,
            { accessToken := some r.access_token
              tokenExpiresAt := now + r.expires_in * 1000 }, true)
  | none =>
      match tokenFetch with
      | .error e => .error e
      | .ok r => .ok (r.access_token,
          { accessToken := some r.access_token
            tokenExpiresAt := now + r.expires_in * 1000 }, true)

/-- One item summary of the Browse API response, optional chains
collapsed (`price`, `image?.imageUrl`, `itemLocation?.city`,
`itemLocation?.stateOrProvince`, `seller?.username`). -/
structure Item where
  itemId : String
  title : Option String
  price : Option (String × String)
  image_url : Option String
  location_city : Option String
  location_state : Option String
  condition : Option String
  seller_username : Option String
  itemWebUrl : Option String
deriving Repr, DecidableEq

structure SearchPayload where
  itemSummaries : Option (List Item)
  total : Option Nat
deriving Repr, DecidableEq

/-- Environment of one search call. -/
structure SearchEnv where
  tokenFetch : Except String TokenResponse
  searchHttp : HttpOutcome SearchPayload
deriving Repr, DecidableEq

/-- Conversion of one item summary; `price` carries the currency code
and the value text, joined exactly as the template literal does. -/
def toListing (nowIso : String) (item : Item) : Listing :=
  let priceStr := match item.price with
    | some (currencyCode, value) =>
        (if currencyCode = "USD" then "$" else currencyCode) ++ value
    | none => "Price not listed"
  let parsed := parsePrice priceStr
  let images := match jsNonEmpty item.image_url with
    | some u => [u]
    | none => []
  let locationText :=
    joinWith ", " (([item.location_city, item.location_state]).filterMap jsNonEmpty)
  { id := item.itemId
    title := jsOrElse item.title "Untitled Listing"
    price := priceStr
    priceNumeric := parsed.bind (·.numeric)
    currency := some (jsOrElse (parsed.map (·.currency)) "$")
    condition := item.condition
    location := jsNonEmpty (some locationText)
    description := none
    url := jsOrElse item.itemWebUrl ("https://www.ebay.com/itm/" ++ item.itemId)
    images := if images.length > 0 then some images else none
    seller := item.seller_username
    marketplace := "ebay"
    scrapedAt := nowIso }

/-- The parseListings for-loop with its break at the limit check. -/
def parseListingsGo (limit : Nat) (nowIso : String) :
    List Item → List Listing → List Listing
  | [], acc => acc.reverse
  | item :: rest, acc =>
      if acc.length ≥ limit then acc.reverse
      else parseListingsGo limit nowIso rest (toListing nowIso item :: acc)

/-- EbayMarketplace.parseListings. -/
def parseListings (items : List Item) (limit : Nat) (nowIso : String) : List Listing :=
  parseListingsGo limit nowIso items []

/-- EbayMarketplace.search.  The credential guard responds before the
try block; inside it, a thrown token exchange or search call is caught
into `createError`, and a non-OK search response returns a
`createError` directly. -/
def search (clientId clientSecret : Option String) (st : TokenState) (now : Int)
    (params : SearchParams) (env : SearchEnv) (nowIso : String) :
    SearchResult × TokenState :=
  let limit := params.limit.getD 20
  if !(jsNonEmpty clientId).isSome || !(jsNonEmpty clientSecret).isSome then
    (createError "ebay"
      "eBay credentials not configured. Set EBAY_CLIENT_ID and EBAY_CLIENT_SECRET environment variables.",
      st)
  else
    match getToken st now env.tokenFetch with
    | .error e => (createError "ebay" ("eBay search failed: " ++ e), st)
    | .ok (_, st2, _) =>
        match env.searchHttp with
        | .threw e => (createError "ebay" ("eBay search failed: " ++ e), st2)
        | .notOk status body =>
            (createError "ebay"
              ("eBay API returned " ++ toString status ++ ": " ++ body), st2)
        | .ok payload =>
            let items := payload.itemSummaries.getD []
            let listings := parseListings items limit nowIso
            ({ marketplace := "ebay"
               success := true
               listings := listings
               error := none
               totalFound := some (payload.total.getD listings.length)
               note := if listings.length = 0 then
                   some "No eBay listings found for this query. eBay searches nationally (not location-based). Try broadening your search terms."
                 else none }, st2)

end Ebay

/-! ## Depop adapter (src/marketplaces/depop.ts)

The browser steps (page creation, navigation, the in-page fetch via
page.evaluate) appear as environment fields; an `Except.error` models
the corresponding await throwing.  The in-page fetch itself catches
its own failures and returns them as a value, hence the explicit
error field of the API response record. -/

namespace Depop

structure Price where
  priceAmount : Option String
  currencyName : Option String
deriving Repr, DecidableEq

/-- The preview object keyed by resolution. -/
structure Preview where
  url480 : Option String
  url320 : Option String
  url640 : Option String
deriving Repr, DecidableEq

structure Product where
  slug : Option String
  price : Option Price
  preview : Option Preview
deriving Repr, DecidableEq

structure ApiData where
  products : Option (List Product)
  meta_resultCount : Option Nat
deriving Repr, DecidableEq

/-- The value produced by the in-page fetch wrapper: either an error
message or the parsed payload (HTTP failure gives an error string and
no data). -/
structure ApiResponse where
  error : Option String
  data : Option ApiData
deriving Repr, DecidableEq

structure SearchEnv where
  newPage : Except String Unit
  gotoHome : Except String Unit
  apiEval : Except String ApiResponse
deriving Repr, DecidableEq

/-- DepopMarketplace.humanizeSlug: a short slug keeps its hyphens as
spaces; a longer one drops the leading username part and the trailing
random suffix and capitalizes each remaining word. -/
def capitalizeWord (w : String) : String :=
  match w.data with
  | [] => ""
  | c :: rest => String.mk (c.toUpper :: rest)

def humanizeSlug (slug : String) : String :=
  let parts := (splitOnChar '-' slug.data).map String.mk
  if parts.length ≤ 2 then
    joinWith " " parts
  else
    joinWith " " ((parts.drop 1).dropLast.map capitalizeWord)

/-- Conversion of one product whose slug passed the truthiness guard. -/
def toListing (nowIso : String) (slug : String) (product : Product) : Listing :=
  let priceAmount := product.price.bind (·.priceAmount)
  let currency := if (product.price.bind (·.currencyName)) == some "GBP" then "£" else "$"
  let priceStr := match priceAmount with
    | some a => currency ++ a
    | none => "Price not listed"
  let imgUrl := product.preview.bind (fun p =>
    jsOrStr p.url480 (jsOrStr p.url320 p.url640))
  let images := match jsNonEmpty imgUrl with
    | some u => [u]
    | none => []
  { id := slug
    title := humanizeSlug slug
    price := priceStr
    priceNumeric := priceAmount.bind parseFloatQ
    currency := some currency
    location := none
    description := none
    url := "https://www.depop.com/products/" ++ slug
    images := if images.length > 0 then some images else none
    seller := none
    condition := none
    marketplace := "depop"
    scrapedAt := nowIso }

/-- The product for-loop with its break at the limit check and the
continue on a missing or empty slug. -/
def parseProductsGo (limit : Nat) (nowIso : String) :
    List Product → List Listing → List Listing
  | [], acc => acc.reverse
  | product :: rest, acc =>
      if acc.length ≥ limit then acc.reverse
      else
        match jsNonEmpty product.slug with
        | none => parseProductsGo limit nowIso rest acc
        | some slug => parseProductsGo limit nowIso rest (toListing nowIso slug product :: acc)

/-- DepopMarketplace.search. -/
def search (params : SearchParams) (env : SearchEnv) (nowIso : String) : SearchResult :=
  let limit := params.limit.getD 24
  match env.newPage with
  | .error e => createError "depop" ("Depop search failed: " ++ e)
  | .ok _ =>
      match env.gotoHome with
      | .error e => createError "depop" ("Depop search failed: " ++ e)
      | .ok _ =>
          match env.apiEval with
          | .error e => createError "depop" ("Depop search failed: " ++ e)
          | .ok resp =>
              if (jsNonEmpty resp.error).isSome || resp.data.isNone then
                createError "depop"
                  ("Depop API error: " ++ (match resp.error with
                    | some s => s
                    | none => "null"))
              else
                let data := resp.data.getD ⟨none, none⟩
                let products := data.products.getD []
                let listings := parseProductsGo limit nowIso products []
                { marketplace := "depop"
                  success := true
                  listings := listings
                  error := none
                  totalFound := some (data.meta_resultCount.getD listings.length)
                  note := none }

end Depop

/-! ## Poshmark adapter (PoshmarkMarketplace in src/marketplaces/base.ts)

The response interception buffer appears as the optional intercepted
payload present after navigation; the DOM path fields model the
fallback extraction. -/

namespace Poshmark

/-- One item of the intercepted vm-rest payload.  Picture entries are
collapsed to the `typeof pic === string ? pic : pic?.url` result. -/
structure Item where
  id : Option String
  post_id : Option String
  title : Option String
  title_slug : Option String
  price_amount_val : Option String
  original_price_amount_val : Option String
  price : Option String
  picture_url : Option String
  pictures : Option (List (Option String))
  creator_username : Option String
  condition : Option String
deriving Repr, DecidableEq

structure ApiData where
  data : Option (List Item)
  total_count : Option Nat
deriving Repr, DecidableEq

/-- One raw card from the DOM extraction; the evaluate script defaults
every field to the empty string. -/
structure RawCard where
  href : String
  title : String
  price : String
  imgSrc : String
  brand : String
  size : String
  seller : String
deriving Repr, DecidableEq

structure SearchEnv where
  newPage : Except String Unit
  gotoSearch : Except String Unit
  apiData : Option ApiData
  waitForCards : Except String Unit
  domCards : Except String (List RawCard)
deriving Repr, DecidableEq

/-- PoshmarkMarketplace.humanizeSlug: drop a trailing 24-character hex
identifier, then capitalize each hyphen-separated word. -/
def isHexChar (c : Char) : Bool :=
  ('0' ≤ c && c ≤ '9') || ('a' ≤ c && c ≤ 'f') || ('A' ≤ c && c ≤ 'F')

def humanizeSlug (slug : String) : String :=
  let parts := (splitOnChar '-' slug.data).map String.mk
  let parts :=
    if parts.length > 1 &&
        ((parts.getLastD "").length = 24 && (parts.getLastD "").data.all isHexChar) then
      parts.dropLast
    else parts
  joinWith " " (parts.map Depop.capitalizeWord)

/-- The `??` chain selecting the displayed price amount. -/
def priceAmountOf (item : Item) : Option String :=
  (item.price_amount_val.orElse (fun _ =>
    item.original_price_amount_val)).orElse (fun _ => item.price)

/-- The picture list assembly: the primary picture first, then every
further truthy url not already present. -/
def collectImages (item : Item) : List String :=
  let start := match jsNonEmpty item.picture_url with
    | some u => [u]
    | none => []
  (item.pictures.getD []).foldl (fun acc pic =>
    match jsNonEmpty pic with
    | some u => if acc.contains u then acc else acc ++ [u]
    | none => acc) start

/-- Conversion of one intercepted API item whose id passed the guard. -/
def apiItemToListing (nowIso : String) (theId : String) (item : Item) : Listing :=
  let priceAmount := priceAmountOf item
  let priceStr := match priceAmount with
    | some a => "$" ++ a
    | none => "Price not listed"
  let images := collectImages item
  { id := theId
    title := jsOrElse item.title "Untitled Listing"
    price := priceStr
    priceNumeric := priceAmount.bind parseFloatQ
    currency := some "$"
    location := none
    description := none
    url := "https://poshmark.com/listing/" ++ jsOrElse item.title_slug theId
    images := if images.length > 0 then some images else none
    seller := item.creator_username
    condition := item.condition
    marketplace := "poshmark"
    scrapedAt := nowIso }

/-- The intercepted-payload for-loop with break at the limit and
continue on a falsy id. -/
def parseApiGo (limit : Nat) (nowIso : String) :
    List Item → List Listing → List Listing
  | [], acc => acc.reverse
  | item :: rest, acc =>
      if acc.length ≥ limit then acc.reverse
      else
        match jsNonEmpty (jsOrStr item.id item.post_id) with
        | none => parseApiGo limit nowIso rest acc
        | some theId => parseApiGo limit nowIso rest (apiItemToListing nowIso theId item :: acc)

/-- PoshmarkMarketplace.parseApiResponse. -/
def parseApiResponse (apiData : ApiData) (limit : Nat) (nowIso : String) : SearchResult :=
  let items := apiData.data.getD []
  let listings := parseApiGo limit nowIso items []
  { marketplace := "poshmark"
    success := true
    listings := listings
    error := none
    totalFound := some (apiData.total_count.getD listings.length)
    note := none }

/-- The suffix of the character list after the last occurrence of the
pattern, mirroring the greedy `^.*\/listing\//` replacement (hrefs are
single-line, so the dot-excludes-newline subtlety does not arise). -/
def suffixAfterLast (pat : List Char) : List Char → Option (List Char)
  | [] => none
  | c :: rest =>
      match suffixAfterLast pat rest with
      | some suf => some suf
      | none =>
          if pat.isPrefixOf (c :: rest) then some ((c :: rest).drop pat.length)
          else none

/-- Slug extraction from a card href: the text after the last
`/listing/`, with a single trailing slash removed. -/
def slugOfHref (href : String) : String :=
  let tail := (suffixAfterLast "/listing/".data href.data).getD href.data
  let tail := match tail.getLast? with
    | some '/' => tail.dropLast
    | _ => tail
  String.mk tail

/-- Substring test over character lists, modelling String.includes. -/
def containsSub (pat : List Char) : List Char → Bool
  | [] => pat.isEmpty
  | c :: rest => pat.isPrefixOf (c :: rest) || containsSub pat rest

/-- Whether `href.includes(p)` holds. -/
def strContains (href p : String) : Bool :=
  containsSub p.data href.data

/-- Title synthesis for one raw DOM card. -/
def cardTitle (raw : RawCard) (slug : String) : String :=
  let t1 := raw.title
  let t2 := if t1 = "" && raw.brand ≠ "" then
      joinWith " - " ([raw.brand, raw.size].filter (fun s => s ≠ ""))
    else t1
  if t2 = "" then humanizeSlug slug else t2

/-- Conversion of one raw DOM card that passed the href and slug
guards. -/
def cardToListing (nowIso : String) (slug : String) (raw : RawCard) : Listing :=
  let parsed := parsePrice raw.price
  { id := slug
    title := cardTitle raw slug
    price := jsOrElse (some raw.price) "Price not listed"
    priceNumeric := parsed.bind (·.numeric)
    currency := some (jsOrElse (parsed.map (·.currency)) "$")
    location := none
    description := none
    url := "https://poshmark.com" ++
      (if jsStartsWith raw.href "/" then "" else "/") ++ raw.href
    images := match jsNonEmpty (some raw.imgSrc) with
      | some u => some [u]
      | none => none
    seller := jsNonEmpty (some raw.seller)
    condition := none
    marketplace := "poshmark"
    scrapedAt := nowIso }

/-- The DOM-card for-loop with break at the limit and continue on
hrefs without a listing segment or with an empty slug. -/
def parseDomGo (limit : Nat) (nowIso : String) :
    List RawCard → List Listing → List Listing
  | [], acc => acc.reverse
  | raw :: rest, acc =>
      if acc.length ≥ limit then acc.reverse
      else
        if raw.href = "" || !(strContains raw.href "/listing/") then
          parseDomGo limit nowIso rest acc
        else
          let slug := slugOfHref raw.href
          if slug = "" then parseDomGo limit nowIso rest acc
          else parseDomGo limit nowIso rest (cardToListing nowIso slug raw :: acc)

/-- PoshmarkMarketplace.parseDomResults, with the selector wait and
the evaluate outcome taken from the environment.  A failed wait
returns the no-listings `createError`; a throwing evaluate propagates
to the caller (modelled by the `Except`). -/
def parseDomResults (env : SearchEnv) (limit : Nat) (nowIso : String) :
    Except String SearchResult :=
  match env.waitForCards with
  | .error _ => .ok (createError "poshmark" "Poshmark: No listings found or page failed to load")
  | .ok _ =>
      match env.domCards with
      | .error e => .error e
      | .ok cards =>
          let listings := parseDomGo limit nowIso cards []
          .ok { marketplace := "poshmark"
                success := true
                listings := listings
                error := none
                totalFound := some listings.length
                note := none }

/-- PoshmarkMarketplace.search. -/
def search (params : SearchParams) (env : SearchEnv) (nowIso : String) : SearchResult :=
  let limit := params.limit.getD 48
  match env.newPage with
  | .error e => createError "poshmark" ("Poshmark search failed: " ++ e)
  | .ok _ =>
      match env.gotoSearch with
      | .error e => createError "poshmark" ("Poshmark search failed: " ++ e)
      | .ok _ =>
          match env.apiData with
          | some apiData =>
              if apiData.data.isSome then parseApiResponse apiData limit nowIso
              else
                match parseDomResults env limit nowIso with
                | .ok r => r
                | .error e => createError "poshmark" ("Poshmark search failed: " ++ e)
          | none =>
              match parseDomResults env limit nowIso with
              | .ok r => r
              | .error e => createError "poshmark" ("Poshmark search failed: " ++ e)

end Poshmark

/-! ## Registry and aggregate search
(src/marketplaces/index.ts and the search_marketplace all handler)

For the aggregator an adapter is a name together with its search
behaviour for a given input; `Except.error` models the awaited
`mp.search` call throwing. -/

/-- A registered marketplace as the aggregator sees it. -/
structure MpStub where
  name : String
  run : SearchParams → Except String SearchResult

/-- registerMarketplace on the registry map: re-registering a name
replaces the entry in place, a fresh name is appended, matching
JavaScript Map insertion-order semantics. -/
def registerMarketplace (reg : List MpStub) (mp : MpStub) : List MpStub :=
  if reg.any (fun m => m.name = mp.name) then
    reg.map (fun m => if m.name = mp.name then mp else m)
  else reg ++ [mp]

/-- getAllMarketplaces: the registered adapters in registration order. -/
def getAllMarketplaces (reg : List MpStub) : List MpStub := reg

/-- The per-adapter step of the all handler: a thrown search becomes a
failed outcome for that marketplace with the stringified error. -/
def aggregateStep (params : SearchParams) (mp : MpStub) : SearchResult :=
  match mp.run params with
  | .ok result => result
  | .error e =>
      { marketplace := mp.name
        success := false
        listings := []
        error := some e
        totalFound := none
        note := none }

/-- The for-loop of the search_marketplace all handler, pushing one
outcome per registered adapter in order. -/
def searchAllGo (params : SearchParams) : List MpStub → List SearchResult → List SearchResult
  | [], acc => acc.reverse
  | mp :: rest, acc => searchAllGo params rest (aggregateStep params mp :: acc)

/-- The all branch of the search_marketplace handler. -/
def searchAllMarketplaces (reg : List MpStub) (params : SearchParams) : List SearchResult :=
  searchAllGo params (getAllMarketplaces reg) []

/-! ## Browser session manager executable resolution
(getBrowser in the server module; findChrome in src/browser.ts)

The filesystem is abstracted as the predicate existsSync tests. -/

namespace BrowserMgr

/-- The fixed per-platform table CHROME_PATHS, with the `?? []`
default for an unknown platform. -/
def chromePaths (platform : String) : List String :=
  if platform = "darwin" then
    ["/Applications/Google Chrome.app/Contents/MacOS/Google Chrome",
     "/Applications/Chromium.app/Contents/MacOS/Chromium"]
  else if platform = "linux" then
    ["/usr/bin/google-chrome",
     "/usr/bin/google-chrome-stable",
     "/usr/bin/chromium-browser",
     "/usr/bin/chromium"]
  else if platform = "win32" then
    ["C:\\Program Files\\Google\\Chrome\\Application\\chrome.exe",
     "C:\\Program Files (x86)\\Google\\Chrome\\Application\\chrome.exe"]
  else []

/-- findChrome: the first listed path the filesystem check accepts. -/
def findChrome (platform : String) (existsAt : String → Bool) : Option String :=
  (chromePaths platform).find? existsAt

/-- The executable resolution step of getBrowser: the environment
override wins by JavaScript truthiness, then detection, and with
neither a configuration error is thrown. -/
def resolveExecutable (envOverride : Option String) (platform : String)
    (existsAt : String → Bool) : Except String String :=
  let executablePath := jsOrStr envOverride (findChrome platform existsAt)
  match executablePath with
  | some p => .ok p
  | none =>
      .error ("Chrome/Chromium not found. Set PUPPETEER_EXECUTABLE_PATH or install Google Chrome. Checked: "
        ++ joinWith ", " (chromePaths platform))

end BrowserMgr

/-! ## Theorems for the claims -/

/-- C3: the shared price parser maps the dollar-and-comma formatted
string to the numeric value 1234.56 with currency symbol `$`, the
thousands separator stripped, and an input without digits such as
`ask` yields no parse at all (the caller then keeps the original price
text). -/
theorem claim_C3_parsePrice_examples :
    parsePrice "$1,234.56" = some ⟨some (1234.56 : ℚ), "$"⟩ ∧
    parsePrice "ask" = none := by
  constructor
  · have h1 : findPriceMatch "$1,234.56".data
        = some (some '$', ['1', ',', '2', '3', '4', '.', '5', '6']) := by decide
    rw [parsePrice, h1]
    dsimp only
    have h2 : (['1', ',', '2', '3', '4', '.', '5', '6'].filter (fun c => !(c == ',')))
        = ['1', '2', '3', '4', '.', '5', '6'] := by decide
    rw [h2]
    simp only [parseFloatQ]
    have ht : List.takeWhile isAsciiDigit ['1', '2', '3', '4', '.', '5', '6']
        = ['1', '2', '3', '4'] := by decide
    have ht2 : List.takeWhile isAsciiDigit ['5', '6'] = ['5', '6'] := by decide
    have hf1 : digitsToNat ['1', '2', '3', '4'] = 1234 := by decide
    have hf2 : digitsToNat ['5', '6'] = 56 := by decide
    simp only [ht, List.length_cons, List.length_nil, List.drop, ht2, hf1, hf2]
    norm_num
  · decide

/-- C6 counterexample: in the detail fetch, the photo call rejecting
while the info call succeeds with full metadata makes the whole fetch
fail, so the data of the succeeding call does not populate any
returned record, contradicting the claim that one failing call is
tolerated. -/
theorem claim_C6_counterexample :
    Facebook.getListingDetails "1234567890"
        ⟨.error "network down",
         .ok (some ⟨some "nice chair", some "San Francisco, CA", none, some "alice",
                    some ["pickup"], some true⟩)⟩
      = .error "network down" := rfl

/-- C6 amended: the two detail calls are issued together through
Promise.all, so the detail fetch succeeds exactly when both calls
succeed; if either call fails the whole detail fetch fails, and only
missing fields inside successful payloads degrade to absent values. -/
theorem claim_C6_amended (listingId : String) (env : Facebook.DetailEnv) :
    (Facebook.getListingDetails listingId env).isOk
      = (env.photosFetch.isOk && env.infoFetch.isOk) := by
  obtain ⟨p, i⟩ := env
  cases p <;> cases i <;> rfl

/-- C7: the cached eBay token is reused exactly while its remaining
lifetime strictly exceeds the fixed 60 second safety margin; at or
below the margin a fresh token is obtained from the token endpoint
before the API call. -/
theorem claim_C7_token_refresh (st : Ebay.TokenState) (now : Int)
    (r : Ebay.TokenResponse) :
    (∀ tok st2, Ebay.getToken st now (.ok r) = .ok (tok, st2, false) →
        st.tokenExpiresAt - now > 60000) ∧
    (st.tokenExpiresAt - now ≤ 60000 →
      Ebay.getToken st now (.ok r)
        = .ok (r.access_token,
            ⟨some r.access_token, now + r.expires_in * 1000⟩, true)) := by
  constructor
  · intro tok st2 h
    unfold Ebay.getToken at h
    cases hA : st.accessToken with
    | none => rw [hA] at h; simp at h
    | some tok0 =>
        rw [hA] at h
        dsimp only at h
        by_cases hc : now < st.tokenExpiresAt - 60000
        · omega
        · rw [if_neg hc] at h; simp at h
  · intro hle
    unfold Ebay.getToken
    cases hA : st.accessToken with
    | none => rfl
    | some tok0 =>
        dsimp only
        rw [if_neg (by omega)]

/-- C7 witness: a cached token thirty seconds from expiry is not
reused; the fresh token from the exchange is returned and cached. -/
theorem claim_C7_witness :
    Ebay.getToken ⟨some "cached", 100000⟩ 70000 (.ok ⟨"fresh", 7200⟩)
      = .ok ("fresh", ⟨some "fresh", 7270000⟩, true) := by
  have h := (claim_C7_token_refresh ⟨some "cached", 100000⟩ 70000 ⟨"fresh", 7200⟩).2
    (by decide)
  simpa using h

/-- C9: the browser executable resolution prefers a truthy environment
override unconditionally, otherwise takes the first existing entry of
the fixed per-platform path table, and when the override is absent or
empty and no listed path exists it raises an explicit configuration
error rather than silently falling back. -/
theorem claim_C9_browser_resolution (platform : String) (existsAt : String → Bool)
    (s : String) :
    (s ≠ "" →
      BrowserMgr.resolveExecutable (some s) platform existsAt = .ok s) ∧
    (∀ p, BrowserMgr.findChrome platform existsAt = some p →
      BrowserMgr.resolveExecutable none platform existsAt = .ok p) ∧
    (BrowserMgr.resolveExecutable (some "") platform existsAt
      = BrowserMgr.resolveExecutable none platform existsAt) ∧
    (BrowserMgr.findChrome platform existsAt = none →
      ∃ msg, BrowserMgr.resolveExecutable none platform existsAt = .error msg) := by
  refine ⟨fun hs => ?_, fun p hp => ?_, ?_, fun hnone => ?_⟩
  · simp [BrowserMgr.resolveExecutable, jsOrStr, hs]
  · simp [BrowserMgr.resolveExecutable, jsOrStr, hp]
  · simp [BrowserMgr.resolveExecutable, jsOrStr]
  · simp [BrowserMgr.resolveExecutable, jsOrStr, hnone]

/-- C9 witness: with no filesystem hit on the linux table the missing
override is a hard error, and a nonempty override resolves to itself
without consulting the table. -/
theorem claim_C9_witness :
    BrowserMgr.resolveExecutable (some "/opt/chrome") "linux" (fun _ => false)
        = .ok "/opt/chrome" ∧
    (∃ msg, BrowserMgr.resolveExecutable none "linux" (fun _ => false) = .error msg) := by
  refine ⟨(claim_C9_browser_resolution "linux" (fun _ => false) "/opt/chrome").1 (by decide),
    (claim_C9_browser_resolution "linux" (fun _ => false) "/opt/chrome").2.2.2 (by decide)⟩

/-- A key whose lookup fails has no entry in the cache. -/
theorem cacheLookup_none_no_key (cache : List (String × LocationCoordinates)) (k : String)
    (h : Facebook.cacheLookup cache k = none) :
    cache.any (fun p => p.1 = k) = false := by
  induction cache with
  | nil => rfl
  | cons hd tl ih =>
      obtain ⟨k2, v2⟩ := hd
      unfold Facebook.cacheLookup at h
      by_cases hk : k2 = k
      · rw [if_pos hk] at h; exact absurd h (by simp)
      · rw [if_neg hk] at h
        simp [List.any_cons, hk, ih h]

/-- Appending a fresh entry makes its key resolvable. -/
theorem cacheLookup_append_self (cache : List (String × LocationCoordinates))
    (k : String) (v : LocationCoordinates)
    (h : Facebook.cacheLookup cache k = none) :
    Facebook.cacheLookup (cache ++ [(k, v)]) k = some v := by
  induction cache with
  | nil => simp [Facebook.cacheLookup]
  | cons hd tl ih =>
      obtain ⟨k2, v2⟩ := hd
      unfold Facebook.cacheLookup at h
      by_cases hk : k2 = k
      · rw [if_pos hk] at h; exact absurd h (by simp)
      · rw [if_neg hk] at h
        simpa [Facebook.cacheLookup, hk] using ih h

/-- C8: location lookups are keyed by the lowercased trimmed query;
two queries equal up to case and surrounding whitespace share one
cache entry, and once the first lookup has resolved successfully the
second is answered from the cache with no upstream call and no cache
growth; from an empty cache the pair of lookups leaves exactly one
entry. -/
theorem claim_C8_location_cache_shared
    (cache : List (String × LocationCoordinates)) (q1 q2 : String)
    (env1 env2 : Facebook.LocEnv)
    (hkey : jsTrim (jsToLower q1) = jsTrim (jsToLower q2))
    (coords : LocationCoordinates) (cache1 : List (String × LocationCoordinates))
    (called1 : Bool)
    (h1 : Facebook.resolveLocation cache q1 env1 = (some coords, cache1, called1)) :
    Facebook.resolveLocation cache1 q2 env2 = (some coords, cache1, false) ∧
    (cache = [] → cache1 = [(jsTrim (jsToLower q1), coords)]) := by
  unfold Facebook.resolveLocation at h1 ⊢
  dsimp only at h1 ⊢
  rw [← hkey]
  cases hl : Facebook.cacheLookup cache (jsTrim (jsToLower q1)) with
  | some v =>
      rw [hl] at h1
      simp only [Prod.mk.injEq, Option.some.injEq] at h1
      obtain ⟨hv, hc, _⟩ := h1
      subst hc hv
      rw [hl]
      refine ⟨rfl, fun hnil => ?_⟩
      subst hnil
      exact absurd hl (by simp [Facebook.cacheLookup])
  | none =>
      rw [hl] at h1
      cases hf : env1.fetch with
      | error e => rw [hf] at h1; simp at h1
      | ok payload =>
          rw [hf] at h1
          cases payload with
          | none => simp at h1
          | some nodes =>
              cases nodes with
              | nil => simp at h1
              | cons node rest =>
                  simp only [Prod.mk.injEq, Option.some.injEq] at h1
                  obtain ⟨hv, hc, _⟩ := h1
                  have hset : Facebook.cacheSet cache (jsTrim (jsToLower q1))
                      ⟨node.latitude, node.longitude, Facebook.locNodeName node⟩
                      = cache ++ [(jsTrim (jsToLower q1),
                          ⟨node.latitude, node.longitude, Facebook.locNodeName node⟩)] := by
                    unfold Facebook.cacheSet
                    rw [cacheLookup_none_no_key cache _ hl]
                    simp
                  rw [hset] at hc
                  have hfind : Facebook.cacheLookup cache1 (jsTrim (jsToLower q1))
                      = some coords := by
                    rw [← hc, hv]
                    exact cacheLookup_append_self cache _ _ hl
                  rw [hfind]
                  refine ⟨rfl, fun hnil => ?_⟩
                  rw [← hc, hv, hnil]
                  rfl

/-- C8 witness: the lookups for the two spellings of San Francisco
share the single cache entry produced by the first successful
resolution; the second lookup is served from the cache even though
its own upstream environment would fail. -/
theorem claim_C8_witness :
    Facebook.resolveLocation
        [("san francisco", ⟨37, 122, "San Francisco, CA"⟩)]
        " san francisco " ⟨.error "offline"⟩
      = (some ⟨37, 122, "San Francisco, CA"⟩,
         [("san francisco", ⟨37, 122, "San Francisco, CA"⟩)], false) :=
  (claim_C8_location_cache_shared [] "San Francisco" " san francisco "
    ⟨.ok (some [⟨none, "San Francisco, CA", 37, 122⟩])⟩ ⟨.error "offline"⟩
    (by decide) ⟨37, 122, "San Francisco, CA"⟩
    [("san francisco", ⟨37, 122, "San Francisco, CA"⟩)] true rfl).1

/-- C10: a location lookup that fails (upstream throw, missing or
empty result set) returns null without touching the cache, and a
later lookup for the same query goes upstream again instead of being
answered from a cached failure. -/
theorem claim_C10_no_failure_caching
    (cache : List (String × LocationCoordinates)) (q : String)
    (env env2 : Facebook.LocEnv)
    (hfail : (Facebook.resolveLocation cache q env).1 = none) :
    (Facebook.resolveLocation cache q env).2.1 = cache ∧
    (Facebook.resolveLocation cache q env).2.2 = true ∧
    (Facebook.resolveLocation cache q env2).2.2 = true := by
  unfold Facebook.resolveLocation at hfail ⊢
  dsimp only at hfail ⊢
  cases hl : Facebook.cacheLookup cache (jsTrim (jsToLower q)) with
  | some v => rw [hl] at hfail; simp at hfail
  | none =>
      rw [hl] at hfail
      have h2 : (match env2.fetch with
          | .error _ => ((none : Option LocationCoordinates), cache, true)
          | .ok none => (none, cache, true)
          | .ok (some []) => (none, cache, true)
          | .ok (some (node :: _)) =>
              (some ⟨node.latitude, node.longitude, Facebook.locNodeName node⟩,
               Facebook.cacheSet cache (jsTrim (jsToLower q))
                 ⟨node.latitude, node.longitude, Facebook.locNodeName node⟩, true)).2.2
          = true := by
        cases hf2 : env2.fetch with
        | error e => rfl
        | ok payload =>
            cases payload with
            | none => rfl
            | some nodes => cases nodes <;> rfl
      cases hf : env.fetch with
      | error e => exact ⟨rfl, rfl, h2⟩
      | ok payload =>
          cases payload with
          | none => exact ⟨rfl, rfl, h2⟩
          | some nodes =>
              cases nodes with
              | nil => exact ⟨rfl, rfl, h2⟩
              | cons node rest => rw [hf] at hfail; simp at hfail

/-- C10 witness: a failed lookup for chicago leaves the cache of one
unrelated entry untouched, made its upstream call, and the retry
consults upstream again. -/
theorem claim_C10_witness :
    (Facebook.resolveLocation [("nyc", ⟨40, 74, "New York, NY"⟩)] "chicago"
        ⟨.error "connection reset"⟩).2.1 = [("nyc", ⟨40, 74, "New York, NY"⟩)] ∧
    (Facebook.resolveLocation [("nyc", ⟨40, 74, "New York, NY"⟩)] "chicago"
        ⟨.error "connection reset"⟩).2.2 = true ∧
    (Facebook.resolveLocation [("nyc", ⟨40, 74, "New York, NY"⟩)] "chicago"
        ⟨.ok (some [⟨none, "Chicago, IL", 41, 87⟩])⟩).2.2 = true :=
  claim_C10_no_failure_caching [("nyc", ⟨40, 74, "New York, NY"⟩)] "chicago"
    ⟨.error "connection reset"⟩ ⟨.ok (some [⟨none, "Chicago, IL", 41, 87⟩])⟩ rfl

/-- The aggregate loop is the map of the per-adapter step over the
registered adapters. -/
theorem searchAllGo_eq_map (params : SearchParams) (mps : List MpStub)
    (acc : List SearchResult) :
    searchAllGo params mps acc = acc.reverse ++ mps.map (aggregateStep params) := by
  induction mps generalizing acc with
  | nil => simp [searchAllGo]
  | cons mp rest ih => simp [searchAllGo, ih]

/-- C4: the aggregate search produces exactly the per-adapter outcome
for every registered adapter, in registration order: the outcome list
is the map of the isolation step, a succeeding adapter contributes its
own outcome unchanged, and a throwing adapter contributes a failed
outcome carrying its error, leaving every other entry untouched. -/
theorem claim_C4_aggregator_isolation (reg : List MpStub) (params : SearchParams) :
    searchAllMarketplaces reg params
        = (getAllMarketplaces reg).map (aggregateStep params) ∧
    (∀ mp r, mp.run params = .ok r → aggregateStep params mp = r) ∧
    (∀ mp e, mp.run params = .error e → aggregateStep params mp =
      { marketplace := mp.name, success := false, listings := [], error := some e,
        totalFound := none, note := none }) := by
  refine ⟨?_, fun mp r h => ?_, fun mp e h => ?_⟩
  · simpa [searchAllMarketplaces, getAllMarketplaces] using
      searchAllGo_eq_map params reg []
  · simp [aggregateStep, h]
  · simp [aggregateStep, h]

/-- C4 witness: over three registered adapters of which the middle one
throws, the aggregate yields exactly three outcomes in registration
order, the middle one failed with the recorded error and the other two
exactly as returned. -/
theorem claim_C4_witness :
    searchAllMarketplaces
        [⟨"facebook", fun _ => .ok (SearchResult.mk "facebook" true [] none (some 0) none)⟩,
         ⟨"ebay", fun _ => .error "Error: socket hang up"⟩,
         ⟨"depop", fun _ => .ok (SearchResult.mk "depop" true [] none (some 3) none)⟩]
        ⟨"bike", none, none, none, none, none, none, none, none, none, none⟩
      = [SearchResult.mk "facebook" true [] none (some 0) none,
         SearchResult.mk "ebay" false [] (some "Error: socket hang up") none none,
         SearchResult.mk "depop" true [] none (some 3) none] ∧
    aggregateStep ⟨"bike", none, none, none, none, none, none, none, none, none, none⟩
        ⟨"ebay", fun _ => .error "Error: socket hang up"⟩
      = SearchResult.mk "ebay" false [] (some "Error: socket hang up") none none ∧
    aggregateStep ⟨"bike", none, none, none, none, none, none, none, none, none, none⟩
        ⟨"depop", fun _ => .ok (SearchResult.mk "depop" true [] none (some 3) none)⟩
      = SearchResult.mk "depop" true [] none (some 3) none := by
  refine ⟨?_, ?_, ?_⟩
  · rw [(claim_C4_aggregator_isolation _ _).1]
    rfl
  · exact (claim_C4_aggregator_isolation [] _).2.2 _ _ rfl
  · exact (claim_C4_aggregator_isolation [] _).2.1 _ _ rfl

/-- The parseListings loop keeps the prefix already accumulated and
appends the filtered, converted remainder up to the open capacity. -/
theorem parseListingsGo_spec (limit : Nat) (showSold : Bool) (nowIso : String)
    (edges : List Facebook.Edge) (acc : List Listing) :
    Facebook.parseListingsGo limit showSold nowIso edges acc
      = if acc.length ≥ limit then acc.reverse
        else acc.reverse ++
          (((Facebook.storyListings edges).filter
              (fun l => showSold || !Facebook.excludedAsSold l)).map
            (Facebook.toListing nowIso)).take (limit - acc.length) := by
  induction edges generalizing acc with
  | nil =>
      rw [Facebook.parseListingsGo]
      split <;> simp [Facebook.storyListings]
  | cons e rest ih =>
      rw [Facebook.parseListingsGo]
      by_cases hlim : acc.length ≥ limit
      · rw [if_pos hlim, if_pos hlim]
      · rw [if_neg hlim, if_neg hlim]
        rcases e with ⟨enode⟩
        rcases enode with _ | fn
        · rw [ih]
          simp [Facebook.storyListings, hlim]
        · rcases fn with l? | -
          · rcases l? with _ | l
            · rw [ih]
              simp [Facebook.storyListings, hlim]
            · dsimp only
              by_cases hskip : (!showSold && Facebook.excludedAsSold l) = true
              · rw [if_pos hskip, ih]
                have hcond : (showSold || !Facebook.excludedAsSold l) = false := by
                  rcases showSold <;> rcases hex : Facebook.excludedAsSold l <;>
                    simp_all
                simp [Facebook.storyListings, hlim, hcond]
              · rw [if_neg hskip, ih]
                have hcond : (showSold || !Facebook.excludedAsSold l) = true := by
                  rcases showSold <;> rcases hex : Facebook.excludedAsSold l <;>
                    simp_all
                have hrest : limit - acc.length = (limit - (acc.length + 1)) + 1 := by
                  omega
                by_cases hlim2 : acc.length + 1 ≥ limit
                · rw [if_pos (by simpa using hlim2)]
                  have : limit - acc.length = 1 := by omega
                  simp [Facebook.storyListings, hcond, this]
                · rw [if_neg (by simpa using hlim2)]
                  simp only [Facebook.storyListings, List.filterMap_cons, hcond,
                    List.filter_cons_of_pos, List.map_cons, hrest, List.take_succ_cons,
                    List.reverse_cons, List.append_assoc, List.length_cons,
                    List.cons_append, List.nil_append]
          · rw [ih]
            simp [Facebook.storyListings, hlim]

/-- C5: with showSold left false an item of the feed is returned
exactly when it carries none of the explicit sold, inactive, pending
or hidden flags and its title does not match the sold-marker patterns
(the two signals are unioned with no precedence), truncated to the
limit; with showSold true no availability exclusion applies at all. -/
theorem claim_C5_sold_filter_union (edges : List Facebook.Edge) (limit : Nat)
    (nowIso : String) :
    Facebook.parseListings edges limit false nowIso
      = (((Facebook.storyListings edges).filter (fun l =>
            !(l.is_sold == some true || l.is_live == some false ||
              l.is_pending == some true || l.is_hidden == some true ||
              (let t := jsToUpper ((l.marketplace_listing_title).getD "")
               jsStartsWith t "[SOLD]" || jsStartsWith t "SOLD -" || t == "SOLD")))).map
          (Facebook.toListing nowIso)).take limit ∧
    Facebook.parseListings edges limit true nowIso
      = ((Facebook.storyListings edges).map (Facebook.toListing nowIso)).take limit := by
  constructor
  · rw [Facebook.parseListings, parseListingsGo_spec]
    by_cases h0 : ([] : List Listing).length ≥ limit
    · have hz : limit = 0 := by simpa using h0
      subst hz
      simp
    · rw [if_neg h0]
      simp only [List.length_nil, Nat.sub_zero, List.reverse_nil, List.nil_append,
        Bool.false_or]
      rfl
  · rw [Facebook.parseListings, parseListingsGo_spec]
    by_cases h0 : ([] : List Listing).length ≥ limit
    · have hz : limit = 0 := by simpa using h0
      subst hz
      simp
    · rw [if_neg h0]
      simp [List.filter_true]

/-- Outcome shape of the Facebook search: a clean success, or a failed
outcome that carries an error message and no listings. -/
theorem facebook_search_cases (cache : List (String × LocationCoordinates))
    (params : SearchParams) (env : Facebook.SearchEnv) (nowIso : String) :
    ((Facebook.search cache params env nowIso).1.success = true ∧
     (Facebook.search cache params env nowIso).1.error = none) ∨
    ((Facebook.search cache params env nowIso).1.success = false ∧
     (Facebook.search cache params env nowIso).1.error.isSome = true ∧
     (Facebook.search cache params env nowIso).1.listings = []) := by
  unfold Facebook.search
  dsimp only
  split
  · right; simp [createError]
  · split
    · right; simp [createError]
    · right; simp [createError]
    · left; simp

/-- Outcome shape of the eBay search. -/
theorem ebay_search_cases (cid csec : Option String) (st : Ebay.TokenState)
    (now : Int) (params : SearchParams) (env : Ebay.SearchEnv) (nowIso : String) :
    ((Ebay.search cid csec st now params env nowIso).1.success = true ∧
     (Ebay.search cid csec st now params env nowIso).1.error = none) ∨
    ((Ebay.search cid csec st now params env nowIso).1.success = false ∧
     (Ebay.search cid csec st now params env nowIso).1.error.isSome = true ∧
     (Ebay.search cid csec st now params env nowIso).1.listings = []) := by
  unfold Ebay.search
  dsimp only
  split
  · right; simp [createError]
  · split
    · right; simp [createError]
    · split
      · right; simp [createError]
      · right; simp [createError]
      · left; simp

/-- Outcome shape of the Depop search. -/
theorem depop_search_cases (params : SearchParams) (env : Depop.SearchEnv)
    (nowIso : String) :
    ((Depop.search params env nowIso).success = true ∧
     (Depop.search params env nowIso).error = none) ∨
    ((Depop.search params env nowIso).success = false ∧
     (Depop.search params env nowIso).error.isSome = true ∧
     (Depop.search params env nowIso).listings = []) := by
  unfold Depop.search
  dsimp only
  split
  · right; simp [createError]
  · split
    · right; simp [createError]
    · split
      · right; simp [createError]
      · split
        · right; simp [createError]
        · left; simp

/-- Outcome shape of the Poshmark DOM fallback path. -/
theorem posh_parseDomResults_cases (env : Poshmark.SearchEnv) (limit : Nat)
    (nowIso : String) :
    (∃ r, Poshmark.parseDomResults env limit nowIso = .ok r ∧
      ((r.success = true ∧ r.error = none) ∨
       (r.success = false ∧ r.error.isSome = true ∧ r.listings = []))) ∨
    (∃ e, Poshmark.parseDomResults env limit nowIso = .error e) := by
  unfold Poshmark.parseDomResults
  split
  · exact Or.inl ⟨_, rfl, Or.inr (by simp [createError])⟩
  · split
    · exact Or.inr ⟨_, rfl⟩
    · exact Or.inl ⟨_, rfl, Or.inl (by simp)⟩

/-- Outcome shape of the Poshmark search. -/
theorem posh_search_cases (params : SearchParams) (env : Poshmark.SearchEnv)
    (nowIso : String) :
    ((Poshmark.search params env nowIso).success = true ∧
     (Poshmark.search params env nowIso).error = none) ∨
    ((Poshmark.search params env nowIso).success = false ∧
     (Poshmark.search params env nowIso).error.isSome = true ∧
     (Poshmark.search params env nowIso).listings = []) := by
  unfold Poshmark.search
  dsimp only
  split
  · right; simp [createError]
  · split
    · right; simp [createError]
    · split
      · split
        · left; simp [Poshmark.parseApiResponse]
        · rcases posh_parseDomResults_cases env (params.limit.getD 48) nowIso with
            ⟨r, hr, hcase⟩ | ⟨e, he⟩
          · rw [hr]; exact hcase
          · rw [he]; right; simp [createError]
      · rcases posh_parseDomResults_cases env (params.limit.getD 48) nowIso with
          ⟨r, hr, hcase⟩ | ⟨e, he⟩
        · rw [hr]; exact hcase
        · rw [he]; right; simp [createError]

/-- C1: for every adapter and every environment the search function
returns an Outcome: either a clean success with no error field, or a
failure carrying an error message; in particular an upstream throw of
the adapters central call (the GraphQL search fetch, the Browse API
call, the in-page API evaluation, the search navigation) and missing
eBay credentials are all converted into a failed Outcome rather than
an exception escaping search. -/
theorem claim_C1_search_never_raises :
    (∀ cache params env nowIso,
      ((Facebook.search cache params env nowIso).1.success = true ∧
       (Facebook.search cache params env nowIso).1.error = none) ∨
      ((Facebook.search cache params env nowIso).1.success = false ∧
       (Facebook.search cache params env nowIso).1.error.isSome = true)) ∧
    (∀ cache params env nowIso e, env.searchFetch = .error e →
      (Facebook.search cache params env nowIso).1.success = false) ∧
    (∀ cid csec st now params env nowIso,
      ((Ebay.search cid csec st now params env nowIso).1.success = true ∧
       (Ebay.search cid csec st now params env nowIso).1.error = none) ∨
      ((Ebay.search cid csec st now params env nowIso).1.success = false ∧
       (Ebay.search cid csec st now params env nowIso).1.error.isSome = true)) ∧
    (∀ cid csec st now params env nowIso e, env.searchHttp = .threw e →
      (Ebay.search cid csec st now params env nowIso).1.success = false) ∧
    (∀ csec st now params env nowIso,
      (Ebay.search none csec st now params env nowIso).1.success = false) ∧
    (∀ params env nowIso,
      ((Depop.search params env nowIso).success = true ∧
       (Depop.search params env nowIso).error = none) ∨
      ((Depop.search params env nowIso).success = false ∧
       (Depop.search params env nowIso).error.isSome = true)) ∧
    (∀ params env nowIso e, env.apiEval = .error e →
      (Depop.search params env nowIso).success = false) ∧
    (∀ params env nowIso,
      ((Poshmark.search params env nowIso).success = true ∧
       (Poshmark.search params env nowIso).error = none) ∨
      ((Poshmark.search params env nowIso).success = false ∧
       (Poshmark.search params env nowIso).error.isSome = true)) ∧
    (∀ params env nowIso e, env.gotoSearch = .error e →
      (Poshmark.search params env nowIso).success = false) := by
  refine ⟨fun cache params env nowIso => ?_, fun cache params env nowIso e hf => ?_,
    fun cid csec st now params env nowIso => ?_,
    fun cid csec st now params env nowIso e hf => ?_,
    fun csec st now params env nowIso => ?_,
    fun params env nowIso => ?_, fun params env nowIso e hf => ?_,
    fun params env nowIso => ?_, fun params env nowIso e hf => ?_⟩
  · rcases facebook_search_cases cache params env nowIso with ⟨h1, h2⟩ | ⟨h1, h2, _⟩
    · exact Or.inl ⟨h1, h2⟩
    · exact Or.inr ⟨h1, h2⟩
  · unfold Facebook.search
    dsimp only
    split
    · simp [createError]
    · rw [hf]; simp [createError]
  · rcases ebay_search_cases cid csec st now params env nowIso with ⟨h1, h2⟩ | ⟨h1, h2, _⟩
    · exact Or.inl ⟨h1, h2⟩
    · exact Or.inr ⟨h1, h2⟩
  · unfold Ebay.search
    dsimp only
    split
    · simp [createError]
    · split
      · simp [createError]
      · rw [hf]; simp [createError]
  · unfold Ebay.search
    dsimp only
    rw [if_pos (by simp [jsNonEmpty])]
    simp [createError]
  · rcases depop_search_cases params env nowIso with ⟨h1, h2⟩ | ⟨h1, h2, _⟩
    · exact Or.inl ⟨h1, h2⟩
    · exact Or.inr ⟨h1, h2⟩
  · unfold Depop.search
    dsimp only
    split
    · simp [createError]
    · split
      · simp [createError]
      · rw [hf]; simp [createError]
  · rcases posh_search_cases params env nowIso with ⟨h1, h2⟩ | ⟨h1, h2, _⟩
    · exact Or.inl ⟨h1, h2⟩
    · exact Or.inr ⟨h1, h2⟩
  · unfold Poshmark.search
    dsimp only
    split
    · simp [createError]
    · rw [hf]; simp [createError]

/-- C1 witness: a concrete throwing environment for each adapter (and
missing credentials for eBay) yields a returned failed Outcome. -/
theorem claim_C1_witness :
    (Facebook.search [] ⟨"bike", none, none, none, none, none, none, none, none, none, none⟩
        ⟨⟨.ok (some [⟨none, "SF", 37, 122⟩])⟩, .error "fetch failed"⟩ "t").1.success = false ∧
    (Ebay.search (some "id") (some "secret") ⟨none, 0⟩ 0
        ⟨"bike", none, none, none, none, none, none, none, none, none, none⟩
        ⟨.ok ⟨"tok", 7200⟩, .threw "socket hang up"⟩ "t").1.success = false ∧
    (Ebay.search none (some "secret") ⟨none, 0⟩ 0
        ⟨"bike", none, none, none, none, none, none, none, none, none, none⟩
        ⟨.ok ⟨"tok", 7200⟩, .ok ⟨none, none⟩⟩ "t").1.success = false ∧
    (Depop.search ⟨"bike", none, none, none, none, none, none, none, none, none, none⟩
        ⟨.ok (), .ok (), .error "page crashed"⟩ "t").success = false ∧
    (Poshmark.search ⟨"bike", none, none, none, none, none, none, none, none, none, none⟩
        ⟨.ok (), .error "nav timeout", none, .ok (), .ok []⟩ "t").success = false := by
  refine ⟨claim_C1_search_never_raises.2.1 _ _ _ _ "fetch failed" rfl,
    claim_C1_search_never_raises.2.2.2.1 _ _ _ _ _ _ _ "socket hang up" rfl,
    claim_C1_search_never_raises.2.2.2.2.1 _ _ _ _ _ _,
    claim_C1_search_never_raises.2.2.2.2.2.2.1 _ _ _ "page crashed" rfl,
    claim_C1_search_never_raises.2.2.2.2.2.2.2.2 _ _ _ "nav timeout" rfl⟩

/-- C2: every failed Outcome produced by an adapter search has an
empty listings list, and the aggregate search preserves the invariant:
its own synthesized failure outcomes are empty, and outcomes passed
through keep the invariant they came with. -/
theorem claim_C2_failed_outcome_empty :
    (∀ cache params env nowIso,
      (Facebook.search cache params env nowIso).1.success = false →
      (Facebook.search cache params env nowIso).1.listings = []) ∧
    (∀ cid csec st now params env nowIso,
      (Ebay.search cid csec st now params env nowIso).1.success = false →
      (Ebay.search cid csec st now params env nowIso).1.listings = []) ∧
    (∀ params env nowIso,
      (Depop.search params env nowIso).success = false →
      (Depop.search params env nowIso).listings = []) ∧
    (∀ params env nowIso,
      (Poshmark.search params env nowIso).success = false →
      (Poshmark.search params env nowIso).listings = []) ∧
    (∀ reg params,
      (∀ mp, mp ∈ reg → ∀ s, mp.run params = .ok s →
        s.success = false → s.listings = []) →
      ∀ r, r ∈ searchAllMarketplaces reg params →
        r.success = false → r.listings = []) := by
  refine ⟨fun cache params env nowIso hfalse => ?_,
    fun cid csec st now params env nowIso hfalse => ?_,
    fun params env nowIso hfalse => ?_, fun params env nowIso hfalse => ?_,
    fun reg params hstubs r hr hfalse => ?_⟩
  · rcases facebook_search_cases cache params env nowIso with ⟨h1, _⟩ | ⟨_, _, h3⟩
    · rw [h1] at hfalse; cases hfalse
    · exact h3
  · rcases ebay_search_cases cid csec st now params env nowIso with ⟨h1, _⟩ | ⟨_, _, h3⟩
    · rw [h1] at hfalse; cases hfalse
    · exact h3
  · rcases depop_search_cases params env nowIso with ⟨h1, _⟩ | ⟨_, _, h3⟩
    · rw [h1] at hfalse; cases hfalse
    · exact h3
  · rcases posh_search_cases params env nowIso with ⟨h1, _⟩ | ⟨_, _, h3⟩
    · rw [h1] at hfalse; cases hfalse
    · exact h3
  · rw [searchAllMarketplaces, getAllMarketplaces, searchAllGo_eq_map] at hr
    simp only [List.reverse_nil, List.nil_append, List.mem_map] at hr
    obtain ⟨mp, hmp, hstep⟩ := hr
    rcases hrun : mp.run params with e | s
    · rw [← hstep]
      unfold aggregateStep
      rw [hrun]
    · have : r = s := by rw [← hstep]; unfold aggregateStep; rw [hrun]
      subst this
      exact hstubs mp hmp r hrun hfalse

/-- C2 witness: a concrete failed Facebook search and a concrete
aggregate with one throwing adapter both yield empty listings. -/
theorem claim_C2_witness :
    (Facebook.search [] ⟨"bike", none, none, none, none, none, none, none, none, none, none⟩
        ⟨⟨.error "offline"⟩, .error "offline"⟩ "t").1.listings = [] ∧
    (Ebay.search none none ⟨none, 0⟩ 0
        ⟨"bike", none, none, none, none, none, none, none, none, none, none⟩
        ⟨.error "down", .threw "down"⟩ "t").1.listings = [] ∧
    (Depop.search ⟨"bike", none, none, none, none, none, none, none, none, none, none⟩
        ⟨.error "no browser", .ok (), .ok ⟨none, none⟩⟩ "t").listings = [] ∧
    (Poshmark.search ⟨"bike", none, none, none, none, none, none, none, none, none, none⟩
        ⟨.error "no browser", .ok (), none, .ok (), .ok []⟩ "t").listings = [] ∧
    (SearchResult.mk "ebay" false [] (some "boom") none none).listings = [] := by
  refine ⟨?_, ?_, ?_, ?_, ?_⟩
  · exact claim_C2_failed_outcome_empty.1 [] _ _ "t" rfl
  · exact claim_C2_failed_outcome_empty.2.1 none none ⟨none, 0⟩ 0 _ _ "t" rfl
  · exact claim_C2_failed_outcome_empty.2.2.1 _ _ "t" rfl
  · exact claim_C2_failed_outcome_empty.2.2.2.1 _ _ "t" rfl
  · exact claim_C2_failed_outcome_empty.2.2.2.2
      [⟨"ebay", fun _ => .error "boom"⟩]
      ⟨"bike", none, none, none, none, none, none, none, none, none, none⟩
      (fun mp hmp s hok => by
        rw [List.mem_singleton] at hmp
        subst hmp
        exact absurd hok (by simp))
      (SearchResult.mk "ebay" false [] (some "boom") none none)
      (by decide) rfl

end Secondhand
